import Mathlib

/-!
Verification of the adventure-game socket server (src/server.py).

Strings from the Python code are modelled as lists of characters
(List Char).  The per-connection mutable state of the Server object
(input_buffer, output_buffer, done, room) is the structure Server;
each Python method becomes a pure function from Server to Server,
with Option marking the operations that can raise (a dictionary
lookup with a missing key, or a read loop that runs out of data).
-/

namespace Venture

/-- The space character (code point 32). -/
def spaceChar : Char := Char.ofNat 32

/-- The newline character (code point 10). -/
def newlineChar : Char := Char.ofNat 10

/-- The single-quote character (code point 39), used by the say template. -/
def quoteChar : Char := Char.ofNat 39

/-- The characters removed by Python str.strip with no argument
(ASCII whitespace: space, tab, newline, carriage return, vertical
tab, form feed). -/
def isPySpace (c : Char) : Bool :=
  c == spaceChar || c == Char.ofNat 9 || c == newlineChar ||
  c == Char.ofNat 13 || c == Char.ofNat 11 || c == Char.ofNat 12

/-- Python str.strip(): remove leading and trailing whitespace. -/
def pyStrip (l : List Char) : List Char :=
  ((l.dropWhile isPySpace).reverse.dropWhile isPySpace).reverse

/-- Modelled from the spec words only (for comparison with pyStrip):
remove trailing whitespace, keeping leading whitespace intact. -/
def trimTrailing (l : List Char) : List Char :=
  (l.reverse.dropWhile isPySpace).reverse

/-- Python input_buffer.split(sep = one space), which always returns a
non-empty list of words; the result is represented as (head, tail),
i.e. the popped first word together with the remaining words.
Splitting the empty string yields ([""]), i.e. ([], []). -/
def splitOnSpace : List Char → List Char × List (List Char)
  | [] => ([], [])
  | c :: rest =>
    if c = spaceChar then ([], (splitOnSpace rest).1 :: (splitOnSpace rest).2)
    else (c :: (splitOnSpace rest).1, (splitOnSpace rest).2)

/-- Python (one space).join(words). -/
def joinSpace : List (List Char) → List Char
  | [] => []
  | [w] => w
  | w :: ws => w ++ spaceChar :: joinSpace ws

/-- The parse step of Server.route: split the input buffer on spaces,
pop the first word as the command, and join the remaining words back
into the argument string. -/
def parseLine (l : List Char) : List Char × List Char :=
  ((splitOnSpace l).1, joinSpace (splitOnSpace l).2)

/-- Modelled from the spec words only (for comparison with parseLine):
command is everything before the first space, the argument is the
remainder, verbatim. -/
def splitFirstSpace (l : List Char) : List Char × List Char :=
  (l.takeWhile (fun c => c != spaceChar),
   (l.dropWhile (fun c => c != spaceChar)).drop 1)

/-- The mutable per-connection state of the Python Server object
(the socket handles themselves carry no game state and are omitted). -/
structure Server where
  input_buffer : List Char
  output_buffer : List Char
  done : Bool
  room : Nat
deriving DecidableEq, Repr

/-- Server.__init__: empty buffers, done = False, room = 0. -/
def initialServer : Server :=
  { input_buffer := [], output_buffer := [], done := false, room := 0 }

/-- Class attribute game_name. -/
def game_name : List Char := ("Realms of Venture".toList)

/-- Class attribute room_dict; lookup returns none for a missing key
(a Python KeyError). -/
def room_dict (n : Nat) : Option (List Char) :=
  if n = 0 then some ("You are in the room with the white wallpaper".toList)
  else if n = 1 then some ("You are in the room with the green wallpaper".toList)
  else if n = 2 then some ("You are in the room with the brown wallpaper".toList)
  else if n = 3 then some ("You are in the room with the mauve wallpaper".toList)
  else none

/-- Server.room_description: an indexing into room_dict. -/
def room_description (room_number : Nat) : Option (List Char) :=
  room_dict room_number

/-- Server.greet: format the welcome template with the game name and
the description of the current room into the output buffer. -/
def greet (s : Server) : Option Server :=
  match room_description s.room with
  | some d =>
      some { s with output_buffer := ("Welcome to ".toList) ++ game_name ++ ("! ".toList) ++ d }
  | none => none

/-- The valid_moves dictionary of Server.move, keyed by
(current room, direction string). -/
def valid_moves (p : Nat × List Char) : Option Nat :=
  if p = (0, ("north".toList)) then some 3
  else if p = (0, ("west".toList)) then some 1
  else if p = (0, ("east".toList)) then some 2
  else if p = (1, ("east".toList)) then some 0
  else if p = (2, ("west".toList)) then some 0
  else if p = (3, ("south".toList)) then some 0
  else none

/-- Server.move: on a key present in valid_moves, update the room and
put its description into the output buffer; otherwise put the fixed
rejection message.  The inner Option records the room_dict lookup. -/
def move (s : Server) (argument : List Char) : Option Server :=
  match valid_moves (s.room, argument) with
  | some r =>
      match room_description r with
      | some d => some { s with room := r, output_buffer := d }
      | none => none
  | none =>
      some { s with output_buffer := ("Not a valid move! Please try again.".toList) }

/-- The reply template of Server.say: the argument is embedded
verbatim between single quotes, with no escaping. -/
def sayTemplate (argument : List Char) : List Char :=
  ("You say, ".toList) ++ quoteChar :: (argument ++ [quoteChar])

/-- Server.say: put the quoted utterance into the output buffer. -/
def say (s : Server) (argument : List Char) : Server :=
  { s with output_buffer := sayTemplate argument }

/-- Server.quit: set done and put the goodbye message into the output
buffer; the argument is ignored. -/
def quit (s : Server) (argument : List Char) : Server :=
  { s with done := true, output_buffer := ("Goodbye!".toList) }

/-- Server.route: split the input buffer into command and argument
and dispatch through the routing dictionary (quit / move / say),
falling back to the fixed invalid-command reply. -/
def route (s : Server) : Option Server :=
  if (parseLine s.input_buffer).1 = ("quit".toList) then
    some (quit s (parseLine s.input_buffer).2)
  else if (parseLine s.input_buffer).1 = ("move".toList) then
    move s (parseLine s.input_buffer).2
  else if (parseLine s.input_buffer).1 = ("say".toList) then
    some (say s (parseLine s.input_buffer).2)
  else
    some { s with output_buffer := ("Not a valid command.".toList) }

/-- One router invocation on one already-assembled input line:
store the line into the input buffer (as Server.get_input does) and
run Server.route. -/
def handleLine (s : Server) (line : List Char) : Option Server :=
  route { s with input_buffer := line }

/-- The accumulation loop of Server.get_input: while no newline has
been received, append the next recv chunk; none models a recv source
that is exhausted before a newline arrives. -/
def recvLoop (received : List Char) (chunks : List (List Char)) :
    Option (List Char × List (List Char)) :=
  if newlineChar ∈ received then some (received, chunks)
  else
    match chunks with
    | [] => none
    | c :: rest => recvLoop (received ++ c) rest

/-- Server.get_input: run the accumulation loop starting from the
empty string, then strip the accumulated data and store it into the
input buffer; the unconsumed chunks are returned alongside. -/
def get_input (s : Server) (chunks : List (List Char)) :
    Option (Server × List (List Char)) :=
  match recvLoop [] chunks with
  | some (received, rest) => some ({ s with input_buffer := pyStrip received }, rest)
  | none => none

/-- Server.push_output: frame the output buffer for sending. -/
def push_output (s : Server) : List Char :=
  ("OK! ".toList) ++ s.output_buffer ++ [newlineChar]

/-- Concatenation of a list of recv chunks. -/
def joinAll (l : List (List Char)) : List Char :=
  l.foldr (fun a b => a ++ b) []

/-- The serve loop restricted to its observable state changes: route
one stored line after another, stopping early if a lookup fails. -/
def runLines (s : Server) : List (List Char) → Option Server
  | [] => some s
  | l :: ls =>
    match handleLine s l with
    | some t => runLines t ls
    | none => none

/-! ### Lemmas about the split / join parse step -/

lemma joinAll_nil : joinAll [] = [] := rfl

lemma joinAll_cons (c : List Char) (l : List (List Char)) :
    joinAll (c :: l) = c ++ joinAll l := rfl

/-- Joining the words of a split reproduces the original string. -/
lemma joinSpace_splitOnSpace (l : List Char) :
    joinSpace ((splitOnSpace l).1 :: (splitOnSpace l).2) = l := by
  induction l with
  | nil => rfl
  | cons c l ih =>
    by_cases hc : c = spaceChar
    · subst hc
      simp only [splitOnSpace, if_pos rfl]
      rcases hsp : splitOnSpace l with ⟨w, ws⟩
      rw [hsp] at ih
      simpa [joinSpace] using ih
    · simp only [splitOnSpace, if_neg hc]
      rcases hsp : splitOnSpace l with ⟨w, ws⟩
      rw [hsp] at ih
      cases ws with
      | nil => simpa [joinSpace] using ih
      | cons u us =>
        simp only [joinSpace, List.cons_append] at ih ⊢
        rw [ih]

/-- Splitting a string that contains no space yields a single word. -/
lemma splitOnSpace_no_space (l : List Char) (h : spaceChar ∉ l) :
    splitOnSpace l = (l, []) := by
  induction l with
  | nil => rfl
  | cons c l ih =>
    rw [List.mem_cons] at h
    push_neg at h
    have hc : ¬ c = spaceChar := fun e => h.1 e.symm
    simp [splitOnSpace, hc, ih h.2]

/-- Splitting a line made of a space-free command, a space and a rest
isolates the command and keeps the rest intact as the word list of
the rest. -/
lemma splitOnSpace_append (cmd rest : List Char) (h : spaceChar ∉ cmd) :
    splitOnSpace (cmd ++ spaceChar :: rest) =
      (cmd, (splitOnSpace rest).1 :: (splitOnSpace rest).2) := by
  induction cmd with
  | nil => simp [splitOnSpace]
  | cons c cmd ih =>
    rw [List.mem_cons] at h
    push_neg at h
    have hc : ¬ c = spaceChar := fun e => h.1 e.symm
    simp [splitOnSpace, hc, ih h.2]

/-- The parse step on a space-free command followed by a space:
the command is popped and the argument is the rest, verbatim. -/
lemma parseLine_append (cmd rest : List Char) (h : spaceChar ∉ cmd) :
    parseLine (cmd ++ spaceChar :: rest) = (cmd, rest) := by
  unfold parseLine
  rw [splitOnSpace_append cmd rest h]
  exact congrArg (Prod.mk cmd) (joinSpace_splitOnSpace rest)

/-- The parse step on a line with no space at all: the whole line is
the command and the argument is empty. -/
lemma parseLine_no_space (l : List Char) (h : spaceChar ∉ l) :
    parseLine l = (l, []) := by
  unfold parseLine
  rw [splitOnSpace_no_space l h]
  rfl

/-- The split / pop / join parse of the code agrees with a direct
split at the first space character: the command is everything before
the first space and the argument is the remainder, verbatim. -/
lemma parseLine_eq_splitFirstSpace (l : List Char) :
    parseLine l = splitFirstSpace l := by
  induction l with
  | nil => rfl
  | cons c l ih =>
    by_cases hc : c = spaceChar
    · subst hc
      have hsp : splitOnSpace (spaceChar :: l) =
          ([], (splitOnSpace l).1 :: (splitOnSpace l).2) := by
        simp [splitOnSpace]
      unfold parseLine splitFirstSpace
      rw [hsp]
      simp [joinSpace_splitOnSpace l]
    · unfold parseLine splitFirstSpace at ih ⊢
      rw [Prod.mk.injEq] at ih
      have hsp : splitOnSpace (c :: l) =
          (c :: (splitOnSpace l).1, (splitOnSpace l).2) := by
        simp [splitOnSpace, hc]
      rw [hsp]
      have hpc : (c != spaceChar) = true := by simp [hc]
      simp [List.takeWhile_cons, List.dropWhile_cons, hpc, ih.1, ih.2]

/-! ### Lemmas about the recv accumulation loop -/

lemma recvLoop_found (received : List Char) (chunks : List (List Char))
    (h : newlineChar ∈ received) :
    recvLoop received chunks = some (received, chunks) := by
  rw [recvLoop.eq_def, if_pos h]

lemma recvLoop_step (received c : List Char) (rest : List (List Char))
    (h : newlineChar ∉ received) :
    recvLoop received (c :: rest) = recvLoop (received ++ c) rest := by
  rw [recvLoop.eq_def, if_neg h]

/-- The loop consumes whole chunks until the accumulated data first
contains a newline, and returns that accumulated data together with
the unconsumed chunks. -/
lemma recvLoop_append (taken : List (List Char)) (received : List Char)
    (rest : List (List Char))
    (h1 : newlineChar ∉ received ++ joinAll taken.dropLast)
    (h2 : newlineChar ∈ received ++ joinAll taken) :
    recvLoop received (taken ++ rest) = some (received ++ joinAll taken, rest) := by
  induction taken generalizing received with
  | nil =>
    rw [joinAll_nil, List.append_nil] at h2 ⊢
    exact recvLoop_found received rest h2
  | cons c taken ih =>
    cases taken with
    | nil =>
      have hnot : newlineChar ∉ received := by
        simpa [joinAll] using h1
      simp only [List.cons_append, List.nil_append]
      rw [recvLoop_step received c rest hnot]
      have h2a : newlineChar ∈ received ++ c := by
        simpa [joinAll] using h2
      have := recvLoop_found (received ++ c) rest h2a
      simpa [joinAll] using this
    | cons d taken =>
      have hdl : (c :: d :: taken).dropLast = c :: (d :: taken).dropLast := rfl
      rw [hdl, joinAll_cons] at h1
      have hnot : newlineChar ∉ received := by
        intro hm
        exact h1 (by simp [hm])
      simp only [List.cons_append]
      rw [recvLoop_step _ _ _ hnot]
      have h1a : newlineChar ∉ (received ++ c) ++ joinAll (d :: taken).dropLast := by
        simpa [List.append_assoc] using h1
      have h2a : newlineChar ∈ (received ++ c) ++ joinAll (d :: taken) := by
        rw [joinAll_cons] at h2
        simpa [List.append_assoc] using h2
      have := ih (received ++ c) h1a h2a
      rw [joinAll_cons]
      simpa [List.append_assoc] using this

/-! ### Lemmas about the router -/

/-- Unfolding of one router invocation into the dispatch if-chain. -/
lemma handleLine_def (s : Server) (line : List Char) :
    handleLine s line =
      (if (parseLine line).1 = ("quit".toList) then
        some (quit { s with input_buffer := line } (parseLine line).2)
      else if (parseLine line).1 = ("move".toList) then
        move { s with input_buffer := line } (parseLine line).2
      else if (parseLine line).1 = ("say".toList) then
        some (say { s with input_buffer := line } (parseLine line).2)
      else
        some { s with input_buffer := line,
                      output_buffer := ("Not a valid command.".toList) }) := rfl

/-- Parsing a line that starts with a space-free command word and a
space: the components of the result. -/
lemma parseLine_fst_snd (cmd arg : List Char) (h : spaceChar ∉ cmd) :
    (parseLine (cmd ++ spaceChar :: arg)).1 = cmd ∧
      (parseLine (cmd ++ spaceChar :: arg)).2 = arg := by
  rw [parseLine_append cmd arg h]
  exact ⟨rfl, rfl⟩

/-- A say line dispatches to Server.say with the verbatim argument. -/
lemma handleLine_say_eq (s : Server) (arg : List Char) :
    handleLine s (("say ".toList) ++ arg) =
      some { s with input_buffer := ("say ".toList) ++ arg,
                    output_buffer := sayTemplate arg } := by
  have hline : ("say ".toList) ++ arg = ("say".toList) ++ spaceChar :: arg := by
    rw [show ("say ".toList) = ("say".toList) ++ [spaceChar] from (by decide),
      List.append_assoc, List.singleton_append]
  obtain ⟨hp1, hp2⟩ := parseLine_fst_snd ("say".toList) arg (by decide)
  rw [← hline] at hp1 hp2
  rw [handleLine_def, hp1, hp2, if_neg (by decide), if_neg (by decide), if_pos rfl]
  rfl

/-- A move line dispatches to Server.move with the verbatim argument. -/
lemma handleLine_move_eq (s : Server) (d : List Char) :
    handleLine s (("move ".toList) ++ d) =
      move { s with input_buffer := ("move ".toList) ++ d } d := by
  have hline : ("move ".toList) ++ d = ("move".toList) ++ spaceChar :: d := by
    rw [show ("move ".toList) = ("move".toList) ++ [spaceChar] from (by decide),
      List.append_assoc, List.singleton_append]
  obtain ⟨hp1, hp2⟩ := parseLine_fst_snd ("move".toList) d (by decide)
  rw [← hline] at hp1 hp2
  rw [handleLine_def, hp1, hp2, if_neg (by decide), if_pos rfl]

/-- Server.move on a key present in valid_moves, given that the
destination has a description. -/
lemma move_eq_of_found (s : Server) (arg : List Char) (dest : Nat) (dd : List Char)
    (hvm : valid_moves (s.room, arg) = some dest)
    (hdd : room_description dest = some dd) :
    move s arg = some { s with room := dest, output_buffer := dd } := by
  unfold move
  simp only [hvm, hdd]

/-- Server.move on a key absent from valid_moves. -/
lemma move_eq_not_found (s : Server) (arg : List Char)
    (hvm : valid_moves (s.room, arg) = none) :
    move s arg =
      some { s with output_buffer := ("Not a valid move! Please try again.".toList) } := by
  unfold move
  simp only [hvm]

/-- Every destination stored in the valid_moves dictionary is one of
the rooms 0..3. -/
lemma valid_moves_dest {p : Nat × List Char} {dest : Nat}
    (h : valid_moves p = some dest) : dest ≤ 3 := by
  unfold valid_moves at h
  split_ifs at h <;> injection h with h2 <;> omega

/-- Every room 0..3 has a description in room_dict. -/
lemma room_description_of_le {n : Nat} (h : n ≤ 3) :
    ∃ d, room_description n = some d := by
  interval_cases n <;> exact ⟨_, rfl⟩

/-- One router invocation always succeeds, and either leaves the done
flag and room unchanged or sets done (quit) or moves into a room of
the map (move). -/
lemma handleLine_cases (s : Server) (line : List Char) :
    ∃ t, handleLine s line = some t ∧
      (t.done = s.done ∨ t.done = true) ∧ (t.room = s.room ∨ t.room ≤ 3) := by
  rw [handleLine_def]
  split_ifs with h1 h2 h3
  · exact ⟨_, rfl, Or.inr rfl, Or.inl rfl⟩
  · rcases hvm : valid_moves
        (({ s with input_buffer := line } : Server).room, (parseLine line).2)
      with _ | dest
    · rw [move_eq_not_found _ _ hvm]
      exact ⟨_, rfl, Or.inl rfl, Or.inl rfl⟩
    · have hd3 := valid_moves_dest hvm
      obtain ⟨dd, hdd⟩ := room_description_of_le hd3
      rw [move_eq_of_found _ _ dest dd hvm hdd]
      exact ⟨_, rfl, Or.inl rfl, Or.inr hd3⟩
  · exact ⟨_, rfl, Or.inl rfl, Or.inl rfl⟩
  · exact ⟨_, rfl, Or.inl rfl, Or.inl rfl⟩

/-! ### The claims -/

/-- C1: for every (room, direction) pair in the transition table,
handling the line "move " ++ direction while in that room sets the
current room to exactly the mapped destination and produces that
destination's description as the reply. -/
theorem move_valid_transition (s : Server) (d : List Char) (dest : Nat)
    (desc : List Char)
    (h : valid_moves (s.room, d) = some dest)
    (hdesc : room_description dest = some desc) :
    handleLine s (("move ".toList) ++ d) =
      some { s with input_buffer := ("move ".toList) ++ d,
                    room := dest,
                    output_buffer := desc } := by
  rw [handleLine_move_eq]
  exact move_eq_of_found _ _ dest desc h hdesc

/-- Witness for C1: moving north from the starting room reaches room
3 and replies with its description. -/
theorem move_valid_transition_witness :
    handleLine initialServer (("move ".toList) ++ ("north".toList)) =
      some { initialServer with
               input_buffer := ("move ".toList) ++ ("north".toList),
               room := 3,
               output_buffer := ("You are in the room with the mauve wallpaper".toList) } :=
  move_valid_transition initialServer ("north".toList) 3
    ("You are in the room with the mauve wallpaper".toList) (by decide) (by decide)

/-- C2: for every (room, direction) pair absent from the transition
table, handling "move " ++ direction leaves the room unchanged and
replies with the fixed rejection message. -/
theorem move_invalid_rejected (s : Server) (d : List Char)
    (h : valid_moves (s.room, d) = none) :
    handleLine s (("move ".toList) ++ d) =
      some { s with input_buffer := ("move ".toList) ++ d,
                    output_buffer := ("Not a valid move! Please try again.".toList) } := by
  rw [handleLine_move_eq]
  exact move_eq_not_found _ _ h

/-- Witness for C2: moving up from the starting room is rejected. -/
theorem move_invalid_rejected_witness :
    handleLine initialServer (("move ".toList) ++ ("up".toList)) =
      some { initialServer with
               input_buffer := ("move ".toList) ++ ("up".toList),
               output_buffer := ("Not a valid move! Please try again.".toList) } :=
  move_invalid_rejected initialServer ("up".toList) (by decide)

/-- Counterexample to C3: the code strips leading whitespace as well,
unlike a trailing-only trim. -/
theorem parse_leading_whitespace_cex :
    pyStrip ("  quit\n".toList) = ("quit".toList) ∧
      trimTrailing ("  quit\n".toList) = ("  quit".toList) ∧
      ("quit".toList) ≠ ("  quit".toList) := by decide

/-- C3 amended: the line is trimmed of leading AND trailing
whitespace (Python strip), and the trimmed line is split at the first
space character: the command is everything before the first space and
the argument is the remainder, verbatim (never re-tokenized). -/
theorem parse_strip_split (l : List Char) :
    parseLine l = splitFirstSpace l ∧
      pyStrip l = trimTrailing (l.dropWhile isPySpace) :=
  ⟨parseLine_eq_splitFirstSpace l, rfl⟩

/-- Counterexample to C4: a suffix glued directly onto quit changes
the command token, so the line is rejected as an invalid command and
the termination flag stays false. -/
theorem quit_suffix_cex :
    handleLine initialServer ("quitx".toList) =
      some { initialServer with input_buffer := ("quitx".toList),
                                output_buffer := ("Not a valid command.".toList) } ∧
      ("Not a valid command.".toList) ≠ ("Goodbye!".toList) := by decide

/-- C4 amended: for every suffix that is empty or begins with a space
character, handling "quit" ++ suffix sets the termination flag and
replies with the fixed goodbye message, the argument being ignored. -/
theorem quit_with_argument (s : Server) (suf : List Char)
    (h : suf = [] ∨ ∃ t, suf = spaceChar :: t) :
    handleLine s (("quit".toList) ++ suf) =
      some { s with input_buffer := ("quit".toList) ++ suf,
                    done := true,
                    output_buffer := ("Goodbye!".toList) } := by
  rcases h with rfl | ⟨t, rfl⟩
  · rw [List.append_nil, handleLine_def,
      parseLine_no_space ("quit".toList) (by decide), if_pos rfl]
    rfl
  · obtain ⟨hp1, hp2⟩ := parseLine_fst_snd ("quit".toList) t (by decide)
    rw [handleLine_def, hp1, if_pos rfl]
    rfl

/-- Witness for C4 amended: quit with a trailing argument. -/
theorem quit_with_argument_witness :
    handleLine initialServer (("quit".toList) ++ spaceChar :: ("now".toList)) =
      some { initialServer with
               input_buffer := ("quit".toList) ++ spaceChar :: ("now".toList),
               done := true,
               output_buffer := ("Goodbye!".toList) } :=
  quit_with_argument initialServer (spaceChar :: ("now".toList))
    (Or.inr ⟨("now".toList), rfl⟩)

/-- Counterexample to C5: the router is not defensive; invoked on a
terminated session it still processes a move and mutates the room. -/
theorem terminated_room_mutation_cex :
    (handleLine (Server.mk [] [] true 0) ("move north".toList)).map Server.room =
        some 3 ∧
      (3 : Nat) ≠ 0 := by decide

/-- C5 amended: once the termination flag is true no input resets it
(the flag is absorbing), but the router is not defensive: it
processes further input normally, may mutate the current room, and
its reply depends on the input. -/
theorem done_flag_absorbing (s : Server) (line : List Char)
    (hd : s.done = true) :
    (handleLine s line).map Server.done = some true := by
  obtain ⟨t, ht, hdone, _⟩ := handleLine_cases s line
  rw [ht]
  rcases hdone with h | h
  · rw [Option.map_some', h, hd]
  · rw [Option.map_some', h]

/-- Witness for C5 amended: a terminated session stays terminated
across a further routed move. -/
theorem done_flag_absorbing_witness :
    (handleLine (Server.mk [] ("Goodbye!".toList) true 0)
        ("move north".toList)).map Server.done = some true :=
  done_flag_absorbing (Server.mk [] ("Goodbye!".toList) true 0)
    ("move north".toList) rfl

/-- C6: handling a say command replies with the argument embedded
verbatim between single quotes in the fixed template, with no
escaping of embedded quote characters. -/
theorem say_reply_template (s : Server) (arg : List Char) :
    handleLine s (("say ".toList) ++ arg) =
      some { s with input_buffer := ("say ".toList) ++ arg,
                    output_buffer := ("You say, ".toList) ++ quoteChar :: (arg ++ [quoteChar]) } :=
  handleLine_say_eq s arg

/-- C7: a say line never mutates the current room or the termination
flag, for any argument string. -/
theorem say_preserves_state (s : Server) (arg : List Char) :
    (handleLine s (("say ".toList) ++ arg)).map Server.room = some s.room ∧
      (handleLine s (("say ".toList) ++ arg)).map Server.done = some s.done := by
  rw [handleLine_say_eq]
  exact ⟨rfl, rfl⟩

/-- C8: on connection, before any input is read, greeting the fresh
session and framing the output produces exactly the fixed welcome
line. -/
theorem greeting_message :
    (greet initialServer).map push_output =
      some ("OK! Welcome to Realms of Venture! You are in the room with the white wallpaper\n".toList) := by
  decide

/-- Counterexample to C9: a chunk holding two newline-terminated
lines is consumed whole; the input handed to the router is not the
content before the first newline. -/
theorem get_input_merges_cex :
    get_input initialServer [("move north\nquit\n".toList)] =
      some ({ initialServer with input_buffer := ("move north\nquit".toList) }, []) ∧
      ("move north\nquit".toList) ≠ ("move north".toList) := by decide

/-- C9 amended: the reader consumes whole recv chunks until the
accumulated data contains a newline; the line handed to the router is
that entire accumulated data stripped of leading and trailing
whitespace — bytes after the first newline inside a consumed chunk
are merged into the line — and only the chunks after the one holding
the first newline stay unconsumed. -/
theorem get_input_chunked (s : Server) (taken rest : List (List Char))
    (h1 : newlineChar ∉ joinAll taken.dropLast)
    (h2 : newlineChar ∈ joinAll taken) :
    get_input s (taken ++ rest) =
      some ({ s with input_buffer := pyStrip (joinAll taken) }, rest) := by
  unfold get_input
  have hrec := recvLoop_append taken [] rest (by simpa using h1) (by simpa using h2)
  rw [List.nil_append] at hrec
  rw [hrec]

/-- Witness for C9 amended: a line split across two chunks is
reassembled; the chunk after the newline stays unconsumed. -/
theorem get_input_chunked_witness :
    get_input initialServer
        ([("move nor".toList), ("th\n".toList)] ++ [("quit\n".toList)]) =
      some ({ initialServer with
                input_buffer := pyStrip (joinAll [("move nor".toList), ("th\n".toList)]) },
            [("quit\n".toList)]) :=
  get_input_chunked initialServer [("move nor".toList), ("th\n".toList)]
    [("quit\n".toList)] (by decide) (by decide)

/-- C10: from the initial state, after any finite sequence of routed
lines the current room is one of 0..3, a key of the description
table, so the description lookup never fails and no routed line can
fail. -/
theorem room_invariant_safe (lines : List (List Char)) :
    ∃ t, runLines initialServer lines = some t ∧ t.room ≤ 3 ∧
      (room_description t.room).isSome = true := by
  have main : ∀ (ls : List (List Char)) (s : Server), s.room ≤ 3 →
      ∃ t, runLines s ls = some t ∧ t.room ≤ 3 := by
    intro ls
    induction ls with
    | nil => exact fun s hs => ⟨s, rfl, hs⟩
    | cons l ls ih =>
      intro s hs
      obtain ⟨t, ht, _, hroom⟩ := handleLine_cases s l
      have ht3 : t.room ≤ 3 := by
        rcases hroom with h | h
        · rw [h]; exact hs
        · exact h
      obtain ⟨u, hu, hu3⟩ := ih t ht3
      refine ⟨u, ?_, hu3⟩
      simp [runLines, ht, hu]
  obtain ⟨t, ht, ht3⟩ := main lines initialServer (by decide)
  obtain ⟨dd, hdd⟩ := room_description_of_le ht3
  exact ⟨t, ht, ht3, by rw [hdd]; rfl⟩

end Venture
